import Mathlib

/-!
Shallow embedding of the lifecycle-hook reconciliation core of
cluster-api-provider-aws: the ASG lifecycle-hook gateway
(`LifecycleHookNeedsUpdate`, `DescribeLifecycleHooks`/`GetLifecycleHooks`,
`GetLifecycleHook`, `CreateLifecycleHook`, `UpdateLifecycleHook`,
`DeleteLifecycleHook`, `SDKToLifecycleHook`) and the convergence engine
(`ReconcileLifecycleHooks`, `reconcileLifecycleHook`).

Go pointers matter here: the comparison in `LifecycleHookNeedsUpdate` uses
Go `!=` on pointer-typed fields (`*DefaultResult`, `*metav1.Duration`,
`*string`), which compares allocation identity, not pointed-to values.
Pointers are therefore modelled as an allocation id paired with the
pointed-to value, and every place the Go code allocates (`&x`, `aws.String`,
response unmarshalling) consumes fresh ids from a counter threaded through
the state.

The remote AutoScaling service itself is not part of the repository; its
store of hooks is modelled from the spec (create-or-replace keyed by hook
name, absent optional write parameters defaulting to remote-side defaults
that are present on read). Remote faults are injected through a `Faults`
record so that every error path of the Go code is reachable.
-/

/-- Models a non-nil Go pointer: an allocation identity together with the
pointed-to value. Go `==` on pointers compares only the allocation id. -/
structure GoPtr (α : Type) where
  id : Nat
  val : α
  deriving DecidableEq, Repr

/-- Go equality test on two possibly-nil pointers (`p == q` in Go): both nil,
or both non-nil with the same allocation id. The pointed-to values play no
role, exactly as in Go. -/
def goPtrEqB {α : Type} : Option (GoPtr α) → Option (GoPtr α) → Bool
  | none, none => true
  | some p, some q => p.id == q.id
  | _, _ => false

/-- Value-level equality of two possibly-nil pointers: both nil, or both
non-nil with equal pointed-to values. This is the notion of equality the
spec describes for `NeedsUpdate`; the Go code does not use it. -/
def ptrValEqB {α : Type} [DecidableEq α] : Option (GoPtr α) → Option (GoPtr α) → Bool
  | none, none => true
  | some p, some q => decide (p.val = q.val)
  | _, _ => false

/-- The domain hook type `expinfrav1.AWSLifecycleHook`. `Name` and
`LifecycleTransition` are Go value types (string-backed); the remaining
five fields are pointers in the Go struct (each is guarded by `!= nil`
before being dereferenced in the source). `HeartbeatTimeout` points to a
`metav1.Duration`, an int64 count of nanoseconds. -/
structure AWSLifecycleHook where
  Name : String
  LifecycleTransition : String
  DefaultResult : Option (GoPtr String)
  HeartbeatTimeout : Option (GoPtr Int)
  NotificationTargetARN : Option (GoPtr String)
  RoleARN : Option (GoPtr String)
  NotificationMetadata : Option (GoPtr String)
  deriving DecidableEq, Repr

/-- Embeds `Service.LifecycleHookNeedsUpdate`: a disjunction of Go `!=`
tests on `DefaultResult`, `HeartbeatTimeout`, `LifecycleTransition`,
`NotificationTargetARN`, `NotificationMetadata`, in source order. All but
`LifecycleTransition` are pointer fields, so Go `!=` compares allocation
identity there, not values. `RoleARN` and `Name` are not compared. -/
def LifecycleHookNeedsUpdate (existing expected : AWSLifecycleHook) : Bool :=
  !goPtrEqB existing.DefaultResult expected.DefaultResult ||
  !goPtrEqB existing.HeartbeatTimeout expected.HeartbeatTimeout ||
  existing.LifecycleTransition != expected.LifecycleTransition ||
  !goPtrEqB existing.NotificationTargetARN expected.NotificationTargetARN ||
  !goPtrEqB existing.NotificationMetadata expected.NotificationMetadata

/-- The AWS SDK response type `autoscaling.LifecycleHook`: every field is a
pointer (`*string` or `*int64`). `HeartbeatTimeout` is a pointer to whole
seconds on the wire. -/
structure SDKLifecycleHook where
  LifecycleHookName : Option (GoPtr String)
  LifecycleTransition : Option (GoPtr String)
  DefaultResult : Option (GoPtr String)
  HeartbeatTimeout : Option (GoPtr Int)
  NotificationTargetARN : Option (GoPtr String)
  RoleARN : Option (GoPtr String)
  NotificationMetadata : Option (GoPtr String)
  deriving DecidableEq, Repr

/-- Embeds `time.Duration(sec) * time.Second` from `SDKToLifecycleHook`:
whole seconds to nanoseconds. -/
def durationOfSeconds (s : Int) : Int := s * 1000000000

/-- Embeds `int64(hook.HeartbeatTimeout.Duration.Seconds())` from
`CreateLifecycleHook`/`UpdateLifecycleHook`: nanoseconds to whole seconds.
Go computes this through float64 with truncation toward zero; on the
nonnegative whole-second durations admitted by the remote API (at most
48h = 172800s, far below any float64 precision loss) the float computation
is exact and agrees with this integer division. -/
def heartbeatSecondsOfNs (ns : Int) : Int := ns / 1000000000

/-- Embeds `Service.SDKToLifecycleHook`. The source dereferences
`hook.HeartbeatTimeout`, `hook.DefaultResult`, `hook.LifecycleTransition`
and `hook.LifecycleHookName` without nil checks: a nil in any of these is a
runtime panic, modelled as `none`. On success it allocates two fresh
pointers (`&defaultResult` at id `a`, `&metav1Duration` at id `a + 1`) and
passes the remaining SDK pointers through unchanged. -/
def SDKToLifecycleHook (a : Nat) (hook : SDKLifecycleHook) : Option AWSLifecycleHook :=
  match hook.HeartbeatTimeout, hook.DefaultResult, hook.LifecycleTransition, hook.LifecycleHookName with
  | some ht, some dr, some lt, some nm =>
    some { Name := nm.val
         , LifecycleTransition := lt.val
         , DefaultResult := some ⟨a, dr.val⟩
         , HeartbeatTimeout := some ⟨a + 1, durationOfSeconds ht.val⟩
         , NotificationTargetARN := hook.NotificationTargetARN
         , RoleARN := hook.RoleARN
         , NotificationMetadata := hook.NotificationMetadata }
  | _, _, _, _ => none

/-- The request body built by `CreateLifecycleHook`/`UpdateLifecycleHook`
(`autoscaling.PutLifecycleHookInput`). The request crosses the HTTP
boundary serialized, so pointer identity is dropped and only values and
presence remain. -/
structure PutLifecycleHookInput where
  LifecycleHookName : String
  LifecycleTransition : String
  DefaultResult : Option String
  HeartbeatTimeout : Option Int
  NotificationTargetARN : Option String
  RoleARN : Option String
  NotificationMetadata : Option String
  deriving DecidableEq, Repr

/-- Embeds the input construction shared by `CreateLifecycleHook` and
`UpdateLifecycleHook`: name and transition always set, the five optional
parameters set only when the corresponding pointer is non-nil, with the
heartbeat converted to whole seconds. -/
def buildPutInput (hook : AWSLifecycleHook) : PutLifecycleHookInput :=
  { LifecycleHookName := hook.Name
  , LifecycleTransition := hook.LifecycleTransition
  , DefaultResult := hook.DefaultResult.map (fun p => p.val)
  , HeartbeatTimeout := hook.HeartbeatTimeout.map (fun p => heartbeatSecondsOfNs p.val)
  , NotificationTargetARN := hook.NotificationTargetARN.map (fun p => p.val)
  , RoleARN := hook.RoleARN.map (fun p => p.val)
  , NotificationMetadata := hook.NotificationMetadata.map (fun p => p.val) }

/-- Modelled from the spec: the remote-side default applied by the scaling
service when a put omits the heartbeat timeout (spec section 6 requires the
field to be present on read, defaulted remote-side when absent on write).
The concrete value never matters to any claim. -/
def remoteDefaultHeartbeatSeconds : Int := 3600

/-- Modelled from the spec: the remote-side default applied when a put
omits the default result. The concrete value never matters to any claim. -/
def remoteDefaultResult : String := "ABANDON"

/-- Modelled from the spec: one hook as stored by the remote scaling
service. Name, transition, default result and heartbeat timeout are always
present on read (spec section 6: absent optional write parameters default
to remote-side defaults); the notification fields remain optional. -/
structure RemoteHook where
  LifecycleHookName : String
  LifecycleTransition : String
  DefaultResult : String
  HeartbeatTimeout : Int
  NotificationTargetARN : Option String
  RoleARN : Option String
  NotificationMetadata : Option String
  deriving DecidableEq, Repr

/-- Modelled from the spec: the stored form of a put request, with the
remote-side defaults filled in for absent optional parameters. -/
def remoteHookOfPut (i : PutLifecycleHookInput) : RemoteHook :=
  { LifecycleHookName := i.LifecycleHookName
  , LifecycleTransition := i.LifecycleTransition
  , DefaultResult := i.DefaultResult.getD remoteDefaultResult
  , HeartbeatTimeout := i.HeartbeatTimeout.getD remoteDefaultHeartbeatSeconds
  , NotificationTargetARN := i.NotificationTargetARN
  , RoleARN := i.RoleARN
  , NotificationMetadata := i.NotificationMetadata }

/-- Modelled from the spec: `PutLifecycleHook` on the remote service acts
as create-or-replace keyed by hook name (spec section 6). -/
def putRemote (r : List RemoteHook) (i : PutLifecycleHookInput) : List RemoteHook :=
  if r.any (fun rh => rh.LifecycleHookName == i.LifecycleHookName) then
    r.map (fun rh => if rh.LifecycleHookName == i.LifecycleHookName then remoteHookOfPut i else rh)
  else
    r ++ [remoteHookOfPut i]

/-- Modelled from the spec: `DeleteLifecycleHook` on the remote service
removes the hooks with the given name. -/
def deleteRemote (r : List RemoteHook) (name : String) : List RemoteHook :=
  r.filter (fun rh => rh.LifecycleHookName != name)

/-- Models unmarshalling one hook of a describe response into the SDK type:
every present field becomes a freshly allocated pointer (ids `a` to
`a + 6`), as the response bytes are decoded into new Go values. -/
def unmarshalSDKHook (a : Nat) (w : RemoteHook) : SDKLifecycleHook :=
  { LifecycleHookName := some ⟨a, w.LifecycleHookName⟩
  , LifecycleTransition := some ⟨a + 1, w.LifecycleTransition⟩
  , DefaultResult := some ⟨a + 2, w.DefaultResult⟩
  , HeartbeatTimeout := some ⟨a + 3, w.HeartbeatTimeout⟩
  , NotificationTargetARN := w.NotificationTargetARN.map (fun v => ⟨a + 4, v⟩)
  , RoleARN := w.RoleARN.map (fun v => ⟨a + 5, v⟩)
  , NotificationMetadata := w.NotificationMetadata.map (fun v => ⟨a + 6, v⟩) }

/-- Kind of error reported by the remote API on a failed call; the Go code
never inspects it, which is what claim C7 is about. -/
inductive AwsErrorKind
  | notFound
  | other
  deriving DecidableEq, Repr

/-- Fault injection for the remote API: which calls fail during a pass.
Describe and put faults are keyed by hook name; the delete fault carries
the kind of error the remote reports. -/
structure Faults where
  describeOne : String → Bool
  describeAll : Bool
  put : String → Bool
  delete : String → Option AwsErrorKind

/-- The fault-free remote: every call succeeds. -/
def noFaults : Faults :=
  { describeOne := fun _ => false
  , describeAll := false
  , put := fun _ => false
  , delete := fun _ => none }

/-- Reasons written with status conditions, mirroring
`LifecycleHookCreationFailedReason`, `LifecycleHookUpdateFailedReason`,
`LifecycleHookDeletionFailedReason` and `LifecycleHookNotFoundReason`. -/
inductive CondReason
  | creationFailed
  | updateFailed
  | deletionFailed
  | notFound
  deriving DecidableEq, Repr

/-- Status of a condition, mirroring `corev1.ConditionTrue` and friends. -/
inductive CondStatus
  | isTrue
  | isFalse
  | isUnknown
  deriving DecidableEq, Repr

/-- One written condition: status plus optional reason (MarkTrue writes no
reason). -/
structure CondState where
  status : CondStatus
  reason : Option CondReason
  deriving DecidableEq, Repr

/-- The two condition types the code writes on the machine pool:
`LifecycleHookExistsCondition` and `LifecycleHookReadyCondition`. `none`
means the condition has never been written. -/
structure Conditions where
  lifecycleHookExists : Option CondState
  lifecycleHookReady : Option CondState
  deriving DecidableEq, Repr

/-- Observable events of a pass, in order: remote API calls (one per
attempted call, recorded before the call can fail) and condition writes. -/
inductive Event
  | getCall (name : String)
  | listCall
  | createCall (name : String)
  | updateCall (name : String)
  | deleteCall (name : String)
  | markExistsTrue
  | markExistsFalse (reason : CondReason)
  | markReadyUnknown (reason : CondReason)
  deriving DecidableEq, Repr

/-- State threaded through a reconciliation pass: the remote store, the
fresh-allocation counter, the machine pool conditions, and the event
trace. -/
structure PassState where
  remote : List RemoteHook
  fresh : Nat
  conds : Conditions
  trace : List Event
  deriving DecidableEq, Repr

/-- Embeds `conditions.MarkTrue(pool, LifecycleHookExistsCondition)`. -/
def markExistsTrue (st : PassState) : PassState :=
  { st with
    conds := { st.conds with lifecycleHookExists := some ⟨CondStatus.isTrue, none⟩ }
    trace := st.trace ++ [Event.markExistsTrue] }

/-- Embeds `conditions.MarkFalse(pool, LifecycleHookExistsCondition, reason, ...)`. -/
def markExistsFalse (st : PassState) (r : CondReason) : PassState :=
  { st with
    conds := { st.conds with lifecycleHookExists := some ⟨CondStatus.isFalse, some r⟩ }
    trace := st.trace ++ [Event.markExistsFalse r] }

/-- Embeds `conditions.MarkUnknown(pool, LifecycleHookReadyCondition, reason, ...)`. -/
def markReadyUnknown (st : PassState) (r : CondReason) : PassState :=
  { st with
    conds := { st.conds with lifecycleHookReady := some ⟨CondStatus.isUnknown, some r⟩ }
    trace := st.trace ++ [Event.markReadyUnknown r] }

/-- Errors a pass can return, tagged by origin, plus `nilDerefPanic` for
the nil-pointer dereference `SDKToLifecycleHook` performs on a response
hook missing a mandatory field (a Go panic, not a returned error). -/
inductive PassError
  | getErr (name : String)
  | createErr (name : String)
  | updateErr (name : String)
  | listErr
  | deleteErr (name : String) (kind : AwsErrorKind)
  | nilDerefPanic
  deriving DecidableEq, Repr

/-- Outcome of `GetLifecycleHook`: transport failure, conversion panic,
no hook with that name, or the converted hook. -/
inductive GetOutcome
  | failed
  | panicked
  | absent
  | found (hook : AWSLifecycleHook)
  deriving DecidableEq, Repr

/-- Outcome of `GetLifecycleHooks`: transport failure, conversion panic,
or the converted list. -/
inductive ListOutcome
  | failed
  | panicked
  | listed (hooks : List AWSLifecycleHook)
  deriving DecidableEq, Repr

/-- Embeds `Service.GetLifecycleHook`: describe the single name; an empty
result list means absent (`nil, nil` in the source); otherwise the first
response hook is unmarshalled (7 fresh ids) and converted by
`SDKToLifecycleHook` (2 fresh ids). -/
def GetLifecycleHook (f : Faults) (st : PassState) (hook : AWSLifecycleHook) : PassState × GetOutcome :=
  let st1 : PassState := { st with trace := st.trace ++ [Event.getCall hook.Name] }
  if f.describeOne hook.Name then (st1, GetOutcome.failed)
  else
    match st1.remote.filter (fun rh => rh.LifecycleHookName == hook.Name) with
    | [] => (st1, GetOutcome.absent)
    | rh :: _ =>
      match SDKToLifecycleHook (st1.fresh + 7) (unmarshalSDKHook st1.fresh rh) with
      | none => ({ st1 with fresh := st1.fresh + 7 }, GetOutcome.panicked)
      | some hk => ({ st1 with fresh := st1.fresh + 9 }, GetOutcome.found hk)

/-- Converts every hook of a describe-all response, threading the
allocation counter (7 ids for unmarshalling plus 2 for conversion per
hook); `none` if any conversion panics. -/
def convertSDKHooks (a : Nat) : List RemoteHook → Option (List AWSLifecycleHook × Nat)
  | [] => some ([], a)
  | rh :: rest =>
    match SDKToLifecycleHook (a + 7) (unmarshalSDKHook a rh) with
    | none => none
    | some hk =>
      match convertSDKHooks (a + 9) rest with
      | none => none
      | some (l, b) => some (hk :: l, b)

/-- Embeds `Service.GetLifecycleHooks` (describe all hooks of the group and
convert each with `SDKToLifecycleHook`). -/
def GetLifecycleHooks (f : Faults) (st : PassState) : PassState × ListOutcome :=
  let st1 : PassState := { st with trace := st.trace ++ [Event.listCall] }
  if f.describeAll then (st1, ListOutcome.failed)
  else
    match convertSDKHooks st1.fresh st1.remote with
    | none => (st1, ListOutcome.panicked)
    | some (l, b) => ({ st1 with fresh := b }, ListOutcome.listed l)

/-- Embeds `Service.CreateLifecycleHook`: build the put input and call
`PutLifecycleHook`; a wrapped error on transport failure, otherwise the
remote stores the hook. -/
def CreateLifecycleHook (f : Faults) (st : PassState) (hook : AWSLifecycleHook) : PassState × Option PassError :=
  let st1 : PassState := { st with trace := st.trace ++ [Event.createCall hook.Name] }
  if f.put hook.Name then (st1, some (PassError.createErr hook.Name))
  else ({ st1 with remote := putRemote st1.remote (buildPutInput hook) }, none)

/-- Embeds `Service.UpdateLifecycleHook`: identical to the create body
except for the wrapped error, as in the source. -/
def UpdateLifecycleHook (f : Faults) (st : PassState) (hook : AWSLifecycleHook) : PassState × Option PassError :=
  let st1 : PassState := { st with trace := st.trace ++ [Event.updateCall hook.Name] }
  if f.put hook.Name then (st1, some (PassError.updateErr hook.Name))
  else ({ st1 with remote := putRemote st1.remote (buildPutInput hook) }, none)

/-- Embeds `Service.DeleteLifecycleHook`: any error from the client call is
wrapped and returned, with no inspection of the error kind (in particular
no special-casing of not-found); on success the remote entry is removed. -/
def DeleteLifecycleHook (f : Faults) (st : PassState) (name : String) : PassState × Option PassError :=
  let st1 : PassState := { st with trace := st.trace ++ [Event.deleteCall name] }
  match f.delete name with
  | some k => (st1, some (PassError.deleteErr name k))
  | none => ({ st1 with remote := deleteRemote st1.remote name }, none)

/-- Embeds `Service.reconcileLifecycleHook` (the per-hook body): get the
existing hook, marking `LifecycleHookReady` Unknown and returning the error
on failure; create if absent (marking `LifecycleHookExists`
False/CreationFailed on failure) and return immediately on success without
marking anything; otherwise update when `LifecycleHookNeedsUpdate` says so
(marking False/UpdateFailed on failure) and fall through to
`MarkTrue(LifecycleHookExists)`. -/
def reconcileLifecycleHook (f : Faults) (st : PassState) (hook : AWSLifecycleHook) : PassState × Option PassError :=
  match GetLifecycleHook f st hook with
  | (st1, GetOutcome.failed) =>
    (markReadyUnknown st1 CondReason.notFound, some (PassError.getErr hook.Name))
  | (st1, GetOutcome.panicked) => (st1, some PassError.nilDerefPanic)
  | (st1, GetOutcome.absent) =>
    match CreateLifecycleHook f st1 hook with
    | (st2, some e) => (markExistsFalse st2 CondReason.creationFailed, some e)
    | (st2, none) => (st2, none)
  | (st1, GetOutcome.found existingHook) =>
    if LifecycleHookNeedsUpdate existingHook hook then
      match UpdateLifecycleHook f st1 hook with
      | (st2, some e) => (markExistsFalse st2 CondReason.updateFailed, some e)
      | (st2, none) => (markExistsTrue st2, none)
    else (markExistsTrue st1, none)

/-- The fail-fast loop over the desired hooks at the top of
`ReconcileLifecycleHooks`: stop at the first per-hook error. -/
def reconcileLoop (f : Faults) (st : PassState) : List AWSLifecycleHook → PassState × Option PassError
  | [] => (st, none)
  | hook :: rest =>
    match reconcileLifecycleHook f st hook with
    | (st1, none) => reconcileLoop f st1 rest
    | (st1, some e) => (st1, some e)

/-- The pruning loop of `ReconcileLifecycleHooks`: for each hook of the
describe-all snapshot whose name is not among the desired hooks, delete it,
marking `LifecycleHookExists` False/DeletionFailed and aborting on a delete
error. -/
def pruneLoop (f : Faults) (desired : List AWSLifecycleHook) (st : PassState) : List AWSLifecycleHook → PassState × Option PassError
  | [] => (st, none)
  | hook :: rest =>
    if desired.any (fun d => d.Name == hook.Name) then pruneLoop f desired st rest
    else
      match DeleteLifecycleHook f st hook.Name with
      | (st1, some e) => (markExistsFalse st1 CondReason.deletionFailed, some e)
      | (st1, none) => pruneLoop f desired st1 rest

/-- Embeds `Service.ReconcileLifecycleHooks`: run the fail-fast per-hook
loop over the desired hooks, then fetch the full remote list (returning the
error, with no condition write, if that fetch fails) and prune every
remote hook whose name is not desired. -/
def ReconcileLifecycleHooks (f : Faults) (desired : List AWSLifecycleHook) (st : PassState) : PassState × Option PassError :=
  match reconcileLoop f st desired with
  | (st1, some e) => (st1, some e)
  | (st1, none) =>
    match GetLifecycleHooks f st1 with
    | (st2, ListOutcome.failed) => (st2, some PassError.listErr)
    | (st2, ListOutcome.panicked) => (st2, some PassError.nilDerefPanic)
    | (st2, ListOutcome.listed hooks) => pruneLoop f desired st2 hooks

/-- Initial state of a pass: the current remote store, an allocation
counter, the machine pool conditions as the previous pass left them, and an
empty trace. -/
def initState (remote : List RemoteHook) (a : Nat) (c : Conditions) : PassState :=
  { remote := remote, fresh := a, conds := c, trace := [] }

/-- One whole reconciliation pass from a given remote store and condition
state. -/
def runPass (f : Faults) (desired : List AWSLifecycleHook) (remote : List RemoteHook) (a : Nat) (c : Conditions) : PassState × Option PassError :=
  ReconcileLifecycleHooks f desired (initState remote a c)

/-- Names of the hooks in the remote store, in order. -/
def remoteNames (r : List RemoteHook) : List String :=
  r.map (fun rh => rh.LifecycleHookName)

/-- Names of a list of desired (domain) hooks, in order. -/
def desiredNames (hooks : List AWSLifecycleHook) : List String :=
  hooks.map (fun h => h.Name)

/-- Number of create calls in a trace. -/
def countCreates (t : List Event) : Nat :=
  (t.filter (fun e => match e with | Event.createCall _ => true | _ => false)).length

/-- Number of update calls in a trace. -/
def countUpdates (t : List Event) : Nat :=
  (t.filter (fun e => match e with | Event.updateCall _ => true | _ => false)).length

/-- Number of delete calls in a trace. -/
def countDeletes (t : List Event) : Nat :=
  (t.filter (fun e => match e with | Event.deleteCall _ => true | _ => false)).length

/-- Whether an event is a condition write. -/
def isMarkEvent (e : Event) : Bool :=
  match e with
  | Event.markExistsTrue => true
  | Event.markExistsFalse _ => true
  | Event.markReadyUnknown _ => true
  | _ => false

/-- Whether an event is a remote call concerning the given hook name. -/
def eventTouches (n : String) (e : Event) : Bool :=
  match e with
  | Event.getCall m => m == n
  | Event.createCall m => m == n
  | Event.updateCall m => m == n
  | Event.deleteCall m => m == n
  | _ => false

/-- Spec refinement definition, following the words of the spec for
`NeedsUpdate`: true iff at least one of the five comparable fields
(defaultResult, heartbeatTimeout, lifecycleTransition,
notificationTargetRef, notificationMetadata) differs by value equality. -/
def hookComparableValueDiffers (e x : AWSLifecycleHook) : Bool :=
  !ptrValEqB e.DefaultResult x.DefaultResult ||
  !ptrValEqB e.HeartbeatTimeout x.HeartbeatTimeout ||
  e.LifecycleTransition != x.LifecycleTransition ||
  !ptrValEqB e.NotificationTargetARN x.NotificationTargetARN ||
  !ptrValEqB e.NotificationMetadata x.NotificationMetadata

/-- Memory coherence of one pointer pair: if both sides are the same
allocation then they hold the same value. Every pair of pointers of a real
Go execution satisfies this, since one address holds one value. -/
def ptrPairCoherentB {α : Type} [DecidableEq α] : Option (GoPtr α) → Option (GoPtr α) → Bool
  | some p, some q => !(p.id == q.id) || decide (p.val = q.val)
  | _, _ => true

/-- Memory coherence of the four comparable pointer fields of a hook
pair. -/
def hookPtrCoherentB (e x : AWSLifecycleHook) : Bool :=
  ptrPairCoherentB e.DefaultResult x.DefaultResult &&
  ptrPairCoherentB e.HeartbeatTimeout x.HeartbeatTimeout &&
  ptrPairCoherentB e.NotificationTargetARN x.NotificationTargetARN &&
  ptrPairCoherentB e.NotificationMetadata x.NotificationMetadata

/-- Machine pool with neither condition ever written. -/
def conds0 : Conditions := { lifecycleHookExists := none, lifecycleHookReady := none }

/-- A desired hook with every optional field set (allocations 0 to 4). -/
def fullHookA : AWSLifecycleHook :=
  { Name := "a"
  , LifecycleTransition := "autoscaling:EC2_INSTANCE_LAUNCHING"
  , DefaultResult := some ⟨0, "CONTINUE"⟩
  , HeartbeatTimeout := some ⟨1, durationOfSeconds 300⟩
  , NotificationTargetARN := some ⟨2, "arn-target"⟩
  , RoleARN := some ⟨3, "arn-role"⟩
  , NotificationMetadata := some ⟨4, "meta"⟩ }

/-- A desired hook with every optional field nil. -/
def bareHookB : AWSLifecycleHook :=
  { Name := "b"
  , LifecycleTransition := "autoscaling:EC2_INSTANCE_TERMINATING"
  , DefaultResult := none
  , HeartbeatTimeout := none
  , NotificationTargetARN := none
  , RoleARN := none
  , NotificationMetadata := none }

/-- Hook with the same field values as `fullHookA` but freshly allocated
pointers (allocations 10 to 14), as produced by any read-back or deep
copy. -/
def fullHookAClone : AWSLifecycleHook :=
  { Name := "a"
  , LifecycleTransition := "autoscaling:EC2_INSTANCE_LAUNCHING"
  , DefaultResult := some ⟨10, "CONTINUE"⟩
  , HeartbeatTimeout := some ⟨11, durationOfSeconds 300⟩
  , NotificationTargetARN := some ⟨12, "arn-target"⟩
  , RoleARN := some ⟨13, "arn-role"⟩
  , NotificationMetadata := some ⟨14, "meta"⟩ }

/-- First pass of the idempotence experiment: one desired hook, empty
remote, fault-free. -/
def idemPass1 : PassState × Option PassError :=
  runPass noFaults [fullHookA] [] 100 conds0

/-- Second pass immediately after the first, on the remote store exactly as
the first pass left it, with unchanged desired set. -/
def idemPass2 : PassState × Option PassError :=
  runPass noFaults [fullHookA] idemPass1.1.remote idemPass1.1.fresh idemPass1.1.conds

/-- Faults of the fail-fast experiment: the put of hook "a" fails. -/
def createFailFaults : Faults := { noFaults with put := fun n => n == "a" }

/-- Desired set of the fail-fast experiment and its witness. -/
def failFastDesired : List AWSLifecycleHook := [fullHookA, bareHookB]

/-- Scenario A of the spec: one desired hook, empty observed set,
fault-free remote. -/
def scenarioA : PassState × Option PassError :=
  runPass noFaults [bareHookB] [] 100 conds0

/-- Faults of the list-failure experiment: the describe-all call fails. -/
def listFailFaults : Faults := { noFaults with describeAll := true }

/-- Result of a pass with an empty desired set whose pruning list call
fails. -/
def listFailPass : PassState × Option PassError :=
  runPass listFailFaults [] [] 0 conds0

/-- Faults of the delete experiment: the remote reports not-found for hook
"orphan". -/
def deleteNotFoundFaults : Faults :=
  { noFaults with delete := fun n => if n == "orphan" then some AwsErrorKind.notFound else none }

/-- SDK response hook whose heartbeat-timeout field is absent. -/
def sdkHookNoHeartbeat : SDKLifecycleHook :=
  { LifecycleHookName := some ⟨0, "h"⟩
  , LifecycleTransition := some ⟨1, "autoscaling:EC2_INSTANCE_LAUNCHING"⟩
  , DefaultResult := some ⟨2, "CONTINUE"⟩
  , HeartbeatTimeout := none
  , NotificationTargetARN := none
  , RoleARN := none
  , NotificationMetadata := none }

/-- Remote store holding hooks "a" and "b" as a previous pass would have
written them. -/
def remoteStoreAB : List RemoteHook :=
  [remoteHookOfPut (buildPutInput fullHookA), remoteHookOfPut (buildPutInput bareHookB)]

/-- Faults of the partial-success experiment: the put of hook "b" fails. -/
def updateBFaults : Faults := { noFaults with put := fun n => n == "b" }

/-- Pass over desired hooks "a" and "b", both present remotely, where the
update of "b" fails after "a" succeeded. -/
def partialSuccessPass : PassState × Option PassError :=
  runPass updateBFaults [fullHookA, bareHookB] remoteStoreAB 100 conds0

/-- The hook produced by unmarshalling a stored remote hook at allocation
counter `a` and converting it with `SDKToLifecycleHook` (which always
succeeds on describe output, since the four mandatory fields are present
there). -/
def readBackHook (a : Nat) (rh : RemoteHook) : AWSLifecycleHook :=
  { Name := rh.LifecycleHookName
  , LifecycleTransition := rh.LifecycleTransition
  , DefaultResult := some ⟨a + 7, rh.DefaultResult⟩
  , HeartbeatTimeout := some ⟨a + 8, durationOfSeconds rh.HeartbeatTimeout⟩
  , NotificationTargetARN := rh.NotificationTargetARN.map (fun v => ⟨a + 4, v⟩)
  , RoleARN := rh.RoleARN.map (fun v => ⟨a + 5, v⟩)
  , NotificationMetadata := rh.NotificationMetadata.map (fun v => ⟨a + 6, v⟩) }

def orphanRemoteHook : RemoteHook :=
  { LifecycleHookName := "orphan"
  , LifecycleTransition := "autoscaling:EC2_INSTANCE_LAUNCHING"
  , DefaultResult := "ABANDON"
  , HeartbeatTimeout := 3600
  , NotificationTargetARN := none
  , RoleARN := none
  , NotificationMetadata := none }

lemma goPtrEqB_refl {α : Type} (p : Option (GoPtr α)) : goPtrEqB p p = true := by
  cases p <;> simp [goPtrEqB]

lemma ptrValEqB_of_goPtrEqB {α : Type} [DecidableEq α] {p q : Option (GoPtr α)}
    (hc : ptrPairCoherentB p q = true) (hg : goPtrEqB p q = true) :
    ptrValEqB p q = true := by
  cases p <;> cases q <;> simp_all [goPtrEqB, ptrValEqB, ptrPairCoherentB]

lemma goPtrEqB_eq_false_of_valDiff {α : Type} [DecidableEq α] {p q : Option (GoPtr α)}
    (hc : ptrPairCoherentB p q = true) (hv : ptrValEqB p q = false) :
    goPtrEqB p q = false := by
  cases hg : goPtrEqB p q
  · rfl
  · rw [ptrValEqB_of_goPtrEqB hc hg] at hv
    exact hv

lemma SDKToLifecycleHook_unmarshal (a : Nat) (rh : RemoteHook) :
    SDKToLifecycleHook (a + 7) (unmarshalSDKHook a rh) = some (readBackHook a rh) := by
  rfl

lemma mem_remoteNames_iff (r : List RemoteHook) (n : String) :
    n ∈ remoteNames r ↔ ∃ rh ∈ r, rh.LifecycleHookName = n := by
  simp [remoteNames]

lemma putRemote_names_mem (r : List RemoteHook) (i : PutLifecycleHookInput) (n : String) :
    n ∈ remoteNames (putRemote r i) ↔ (n ∈ remoteNames r ∨ n = i.LifecycleHookName) := by
  unfold putRemote
  by_cases hany : r.any (fun rh => rh.LifecycleHookName == i.LifecycleHookName)
  · simp only [hany, if_true]
    rw [mem_remoteNames_iff, mem_remoteNames_iff]
    constructor
    · rintro ⟨rh2, hmem, heq⟩
      rcases List.mem_map.mp hmem with ⟨rh, hrh, himg⟩
      by_cases hm : rh.LifecycleHookName == i.LifecycleHookName
      · right
        rw [← heq, ← himg]
        simp [hm, remoteHookOfPut]
      · left
        refine ⟨rh, hrh, ?_⟩
        rw [← heq, ← himg]
        simp [hm]
    · rintro (⟨rh, hrh, heq⟩ | rfl)
      · by_cases hm : rh.LifecycleHookName == i.LifecycleHookName
        · refine ⟨remoteHookOfPut i, List.mem_map.mpr ⟨rh, hrh, by simp [hm]⟩, ?_⟩
          have : rh.LifecycleHookName = i.LifecycleHookName := by simpa using hm
          rw [remoteHookOfPut, ← this, heq]
        · exact ⟨rh, List.mem_map.mpr ⟨rh, hrh, by simp [hm]⟩, heq⟩
      · rcases List.any_eq_true.mp hany with ⟨rh, hrh, hm⟩
        exact ⟨remoteHookOfPut i, List.mem_map.mpr ⟨rh, hrh, by simp [hm]⟩, rfl⟩
  · simp only [hany, if_false, Bool.false_eq_true]
    rw [mem_remoteNames_iff, mem_remoteNames_iff]
    constructor
    · rintro ⟨rh, hmem, heq⟩
      rcases List.mem_append.mp hmem with hin | hin
      · exact Or.inl ⟨rh, hin, heq⟩
      · right
        rcases List.mem_singleton.mp hin with rfl
        rw [← heq]
        rfl
    · rintro (⟨rh, hrh, heq⟩ | rfl)
      · exact ⟨rh, List.mem_append.mpr (Or.inl hrh), heq⟩
      · exact ⟨remoteHookOfPut i, List.mem_append.mpr (Or.inr (List.mem_singleton.mpr rfl)), rfl⟩

lemma deleteRemote_names_mem (r : List RemoteHook) (m n : String) :
    n ∈ remoteNames (deleteRemote r m) ↔ (n ∈ remoteNames r ∧ n ≠ m) := by
  rw [mem_remoteNames_iff, mem_remoteNames_iff]
  unfold deleteRemote
  constructor
  · rintro ⟨rh, hmem, heq⟩
    rcases List.mem_filter.mp hmem with ⟨hin, hne⟩
    refine ⟨⟨rh, hin, heq⟩, ?_⟩
    rw [← heq]
    simpa using hne
  · rintro ⟨⟨rh, hin, heq⟩, hne⟩
    refine ⟨rh, List.mem_filter.mpr ⟨hin, ?_⟩, heq⟩
    rw [heq] at *
    simpa using hne

lemma buildPutInput_name (hook : AWSLifecycleHook) :
    (buildPutInput hook).LifecycleHookName = hook.Name := rfl

lemma reconcileLifecycleHook_ok_names (f : Faults) (st : PassState) (hook : AWSLifecycleHook)
    (st1 : PassState) (hok : reconcileLifecycleHook f st hook = (st1, none)) (n : String) :
    n ∈ remoteNames st1.remote ↔ (n ∈ remoteNames st.remote ∨ n = hook.Name) := by
  by_cases hd : f.describeOne hook.Name
  · simp [reconcileLifecycleHook, GetLifecycleHook, hd, markReadyUnknown] at hok
  · rcases hfl : st.remote.filter (fun rh => rh.LifecycleHookName == hook.Name) with _ | ⟨rh, rest⟩
    · by_cases hput : f.put hook.Name
      · simp [reconcileLifecycleHook, GetLifecycleHook, CreateLifecycleHook,
          hd, hfl, hput, markExistsFalse] at hok
      · simp [reconcileLifecycleHook, GetLifecycleHook, CreateLifecycleHook,
          hd, hfl, hput] at hok
        rw [← hok]
        simp only []
        rw [putRemote_names_mem, buildPutInput_name]
    · have hmem : hook.Name ∈ remoteNames st.remote := by
        have hrh : rh ∈ st.remote.filter (fun rh2 => rh2.LifecycleHookName == hook.Name) := by
          rw [hfl]
          exact List.mem_cons_self _ _
        rcases List.mem_filter.mp hrh with ⟨hin, hbeq⟩
        exact (mem_remoteNames_iff st.remote hook.Name).mpr ⟨rh, hin, by simpa using hbeq⟩
      have hconv := SDKToLifecycleHook_unmarshal st.fresh rh
      by_cases hup : LifecycleHookNeedsUpdate (readBackHook st.fresh rh) hook
      · by_cases hput : f.put hook.Name
        · simp [reconcileLifecycleHook, GetLifecycleHook, UpdateLifecycleHook,
            hd, hfl, hconv, hput, hup, markExistsFalse, markExistsTrue] at hok
        · simp [reconcileLifecycleHook, GetLifecycleHook, UpdateLifecycleHook,
            hd, hfl, hconv, hput, hup, markExistsTrue] at hok
          rw [← hok]
          simp only [markExistsTrue]
          rw [putRemote_names_mem, buildPutInput_name]
      · simp [reconcileLifecycleHook, GetLifecycleHook,
          hd, hfl, hconv, hup, markExistsTrue] at hok
        rw [← hok]
        constructor
        · exact fun h => Or.inl h
        · rintro (h | rfl)
          · exact h
          · exact hmem

lemma reconcileLoop_ok_names (f : Faults) :
    ∀ (hooks : List AWSLifecycleHook) (st st1 : PassState),
      reconcileLoop f st hooks = (st1, none) →
      ∀ n, n ∈ remoteNames st1.remote ↔
        (n ∈ remoteNames st.remote ∨ n ∈ desiredNames hooks) := by
  intro hooks
  induction hooks with
  | nil =>
    intro st st1 h n
    simp only [reconcileLoop] at h
    rcases h with ⟨rfl, -⟩
    simp [desiredNames]
  | cons hook rest ih =>
    intro st st1 h n
    simp only [reconcileLoop] at h
    rcases hh : reconcileLifecycleHook f st hook with ⟨st2, r⟩
    rw [hh] at h
    cases r with
    | none =>
      have h1 := reconcileLifecycleHook_ok_names f st hook st2 hh n
      have h2 := ih st2 st1 h n
      rw [h2, h1]
      simp only [desiredNames, List.map_cons, List.mem_cons]
      constructor
      · rintro ((h3 | h3) | h3)
        · exact Or.inl h3
        · exact Or.inr (Or.inl h3)
        · exact Or.inr (Or.inr (by simpa [desiredNames] using h3))
      · rintro (h3 | h3 | h3)
        · exact Or.inl (Or.inl h3)
        · exact Or.inl (Or.inr h3)
        · exact Or.inr (by simpa [desiredNames] using h3)
    | some e => simp at h

lemma convertSDKHooks_names (r : List RemoteHook) :
    ∀ a : Nat, ∃ l b, convertSDKHooks a r = some (l, b) ∧ desiredNames l = remoteNames r := by
  induction r with
  | nil => exact fun a => ⟨[], a, rfl, rfl⟩
  | cons rh rest ih =>
    intro a
    obtain ⟨l, b, h1, h2⟩ := ih (a + 9)
    refine ⟨readBackHook a rh :: l, b, ?_, ?_⟩
    · simp [convertSDKHooks, SDKToLifecycleHook_unmarshal, h1]
    · simp only [desiredNames, remoteNames, List.map_cons] at h2 ⊢
      rw [h2]
      rfl

lemma GetLifecycleHooks_listed (f : Faults) (st : PassState) (hda : f.describeAll = false) :
    ∃ st2 hooks, GetLifecycleHooks f st = (st2, ListOutcome.listed hooks) ∧
      st2.remote = st.remote ∧ st2.conds = st.conds ∧
      st2.trace = st.trace ++ [Event.listCall] ∧
      desiredNames hooks = remoteNames st.remote := by
  obtain ⟨l, b, h1, h2⟩ := convertSDKHooks_names st.remote st.fresh
  refine ⟨{ st with trace := st.trace ++ [Event.listCall], fresh := b }, l, ?_, rfl, rfl, rfl, h2⟩
  simp [GetLifecycleHooks, hda, h1]

lemma pruneLoop_ok_names (f : Faults) (desired : List AWSLifecycleHook) :
    ∀ (snap : List AWSLifecycleHook) (st st1 : PassState),
      pruneLoop f desired st snap = (st1, none) →
      ∀ n, n ∈ remoteNames st1.remote ↔
        (n ∈ remoteNames st.remote ∧ (n ∈ desiredNames snap → n ∈ desiredNames desired)) := by
  intro snap
  induction snap with
  | nil =>
    intro st st1 h n
    simp only [pruneLoop] at h
    rcases h with ⟨rfl, -⟩
    simp [desiredNames]
  | cons hook rest ih =>
    intro st st1 h n
    simp only [pruneLoop] at h
    by_cases hf : desired.any (fun d => d.Name == hook.Name)
    · rw [if_pos hf] at h
      have hfound : hook.Name ∈ desiredNames desired := by
        rcases List.any_eq_true.mp hf with ⟨d, hd, hbeq⟩
        simp only [desiredNames]
        exact List.mem_map.mpr ⟨d, hd, by simpa using hbeq⟩
      have h2 := ih st st1 h n
      rw [h2]
      simp only [desiredNames, List.map_cons, List.mem_cons]
      constructor
      · rintro ⟨ha, hb⟩
        refine ⟨ha, ?_⟩
        rintro (rfl | hin)
        · exact hfound
        · exact hb (by simpa [desiredNames] using hin)
      · rintro ⟨ha, hb⟩
        exact ⟨ha, fun hin => hb (Or.inr (by simpa [desiredNames] using hin))⟩
    · rw [if_neg hf] at h
      have hnot : hook.Name ∉ desiredNames desired := by
        intro hin
        rcases List.mem_map.mp (by simpa [desiredNames] using hin) with ⟨d, hd, heq⟩
        exact absurd (List.any_eq_true.mpr ⟨d, hd, by simp [heq]⟩) hf
      rcases hdel : f.delete hook.Name with _ | k
      · simp only [DeleteLifecycleHook, hdel] at h
        have h2 := ih _ st1 h n
        rw [h2]
        simp only []
        rw [deleteRemote_names_mem]
        simp only [desiredNames, List.map_cons, List.mem_cons]
        constructor
        · rintro ⟨⟨ha, hne⟩, hb⟩
          refine ⟨ha, ?_⟩
          rintro (rfl | hin)
          · exact absurd rfl hne
          · exact hb (by simpa [desiredNames] using hin)
        · rintro ⟨ha, hb⟩
          have hne : n ≠ hook.Name := by
            rintro rfl
            exact hnot (hb (Or.inl rfl))
          exact ⟨⟨ha, hne⟩, fun hin => hb (Or.inr (by simpa [desiredNames] using hin))⟩
      · simp only [DeleteLifecycleHook, hdel] at h
        simp [markExistsFalse] at h

lemma ReconcileLifecycleHooks_loop_err (f : Faults) (desired : List AWSLifecycleHook)
    (st st1 : PassState) (e : PassError)
    (h : reconcileLoop f st desired = (st1, some e)) :
    ReconcileLifecycleHooks f desired st = (st1, some e) := by
  unfold ReconcileLifecycleHooks
  rw [h]

lemma ReconcileLifecycleHooks_loop_ok (f : Faults) (desired : List AWSLifecycleHook)
    (st st1 : PassState) (h : reconcileLoop f st desired = (st1, none)) :
    ReconcileLifecycleHooks f desired st =
      match GetLifecycleHooks f st1 with
      | (st2, ListOutcome.failed) => (st2, some PassError.listErr)
      | (st2, ListOutcome.panicked) => (st2, some PassError.nilDerefPanic)
      | (st2, ListOutcome.listed hooks) => pruneLoop f desired st2 hooks := by
  unfold ReconcileLifecycleHooks
  rw [h]

lemma touches_getCall {m n : String} (h : eventTouches n (Event.getCall m) = true) : n = m := by
  simp [eventTouches] at h
  exact h.symm

lemma touches_createCall {m n : String} (h : eventTouches n (Event.createCall m) = true) : n = m := by
  simp [eventTouches] at h
  exact h.symm

lemma touches_updateCall {m n : String} (h : eventTouches n (Event.updateCall m) = true) : n = m := by
  simp [eventTouches] at h
  exact h.symm

lemma touches_markExistsTrue {n : String} (h : eventTouches n Event.markExistsTrue = true) : False := by
  simp [eventTouches] at h

lemma touches_markExistsFalse {n : String} {r : CondReason}
    (h : eventTouches n (Event.markExistsFalse r) = true) : False := by
  simp [eventTouches] at h

lemma touches_markReadyUnknown {n : String} {r : CondReason}
    (h : eventTouches n (Event.markReadyUnknown r) = true) : False := by
  simp [eventTouches] at h

lemma reconcileLifecycleHook_trace (f : Faults) (st : PassState) (hook : AWSLifecycleHook) :
    ∃ d, (reconcileLifecycleHook f st hook).1.trace = st.trace ++ d ∧
      ∀ e ∈ d, e ≠ Event.listCall ∧ ∀ n, eventTouches n e = true → n = hook.Name := by
  by_cases hd : f.describeOne hook.Name
  · refine ⟨[Event.getCall hook.Name, Event.markReadyUnknown CondReason.notFound], ?_, ?_⟩
    · simp [reconcileLifecycleHook, GetLifecycleHook, hd, markReadyUnknown]
    · intro e he
      simp only [List.mem_cons, List.not_mem_nil, or_false] at he
      rcases he with rfl | rfl
      · exact ⟨by simp, fun n h => touches_getCall h⟩
      · exact ⟨by simp, fun n h => absurd h (by simp [eventTouches])⟩
  · rcases hfl : st.remote.filter (fun rh => rh.LifecycleHookName == hook.Name) with _ | ⟨rh, rest⟩
    · by_cases hput : f.put hook.Name
      · refine ⟨[Event.getCall hook.Name, Event.createCall hook.Name,
          Event.markExistsFalse CondReason.creationFailed], ?_, ?_⟩
        · simp [reconcileLifecycleHook, GetLifecycleHook, CreateLifecycleHook,
            hd, hfl, hput, markExistsFalse]
        · intro e he
          simp only [List.mem_cons, List.not_mem_nil, or_false] at he
          rcases he with rfl | rfl | rfl
          · exact ⟨by simp, fun n h => touches_getCall h⟩
          · exact ⟨by simp, fun n h => touches_createCall h⟩
          · exact ⟨by simp, fun n h => absurd h (by simp [eventTouches])⟩
      · refine ⟨[Event.getCall hook.Name, Event.createCall hook.Name], ?_, ?_⟩
        · simp [reconcileLifecycleHook, GetLifecycleHook, CreateLifecycleHook, hd, hfl, hput]
        · intro e he
          simp only [List.mem_cons, List.not_mem_nil, or_false] at he
          rcases he with rfl | rfl
          · exact ⟨by simp, fun n h => touches_getCall h⟩
          · exact ⟨by simp, fun n h => touches_createCall h⟩
    · have hconv := SDKToLifecycleHook_unmarshal st.fresh rh
      by_cases hup : LifecycleHookNeedsUpdate (readBackHook st.fresh rh) hook
      · by_cases hput : f.put hook.Name
        · refine ⟨[Event.getCall hook.Name, Event.updateCall hook.Name,
            Event.markExistsFalse CondReason.updateFailed], ?_, ?_⟩
          · simp [reconcileLifecycleHook, GetLifecycleHook, UpdateLifecycleHook,
              hd, hfl, hconv, hup, hput, markExistsFalse]
          · intro e he
            simp only [List.mem_cons, List.not_mem_nil, or_false] at he
            rcases he with rfl | rfl | rfl
            · exact ⟨by simp, fun n h => touches_getCall h⟩
            · exact ⟨by simp, fun n h => touches_updateCall h⟩
            · exact ⟨by simp, fun n h => absurd h (by simp [eventTouches])⟩
        · refine ⟨[Event.getCall hook.Name, Event.updateCall hook.Name,
            Event.markExistsTrue], ?_, ?_⟩
          · simp [reconcileLifecycleHook, GetLifecycleHook, UpdateLifecycleHook,
              hd, hfl, hconv, hup, hput, markExistsTrue]
          · intro e he
            simp only [List.mem_cons, List.not_mem_nil, or_false] at he
            rcases he with rfl | rfl | rfl
            · exact ⟨by simp, fun n h => touches_getCall h⟩
            · exact ⟨by simp, fun n h => touches_updateCall h⟩
            · exact ⟨by simp, fun n h => absurd h (by simp [eventTouches])⟩
      · refine ⟨[Event.getCall hook.Name, Event.markExistsTrue], ?_, ?_⟩
        · simp [reconcileLifecycleHook, GetLifecycleHook, hd, hfl, hconv, hup, markExistsTrue]
        · intro e he
          simp only [List.mem_cons, List.not_mem_nil, or_false] at he
          rcases he with rfl | rfl
          · exact ⟨by simp, fun n h => touches_getCall h⟩
          · exact ⟨by simp, fun n h => absurd h (by simp [eventTouches])⟩

lemma reconcileLoop_trace (f : Faults) :
    ∀ (hooks : List AWSLifecycleHook) (st : PassState),
      ∃ d, (reconcileLoop f st hooks).1.trace = st.trace ++ d ∧
        ∀ e ∈ d, e ≠ Event.listCall ∧
          ∀ n, eventTouches n e = true → n ∈ desiredNames hooks := by
  intro hooks
  induction hooks with
  | nil =>
    intro st
    exact ⟨[], by simp [reconcileLoop], by simp⟩
  | cons hook rest ih =>
    intro st
    obtain ⟨d0, hd0, hp0⟩ := reconcileLifecycleHook_trace f st hook
    rcases hh : reconcileLifecycleHook f st hook with ⟨st2, r⟩
    rw [hh] at hd0
    cases r with
    | none =>
      obtain ⟨d1, hd1, hp1⟩ := ih st2
      refine ⟨d0 ++ d1, ?_, ?_⟩
      · simp only [reconcileLoop, hh]
        rw [hd1, hd0, List.append_assoc]
      · intro e he
        rcases List.mem_append.mp he with hin | hin
        · obtain ⟨h1, h2⟩ := hp0 e hin
          exact ⟨h1, fun n h => by
            simp only [desiredNames, List.map_cons, List.mem_cons]
            exact Or.inl (h2 n h)⟩
        · obtain ⟨h1, h2⟩ := hp1 e hin
          exact ⟨h1, fun n h => by
            simp only [desiredNames, List.map_cons, List.mem_cons]
            exact Or.inr (by simpa [desiredNames] using h2 n h)⟩
    | some e2 =>
      refine ⟨d0, ?_, ?_⟩
      · simp only [reconcileLoop, hh]
        exact hd0
      · intro e he
        obtain ⟨h1, h2⟩ := hp0 e he
        exact ⟨h1, fun n h => by
          simp only [desiredNames, List.map_cons, List.mem_cons]
          exact Or.inl (h2 n h)⟩

lemma reconcileLoop_append (f : Faults) (xs ys : List AWSLifecycleHook) :
    ∀ st, reconcileLoop f st (xs ++ ys) =
      match reconcileLoop f st xs with
      | (st1, none) => reconcileLoop f st1 ys
      | (st1, some e) => (st1, some e) := by
  induction xs with
  | nil =>
    intro st
    rfl
  | cons x xs ih =>
    intro st
    simp only [List.cons_append, reconcileLoop]
    rcases hh : reconcileLifecycleHook f st x with ⟨st1, r⟩
    cases r with
    | none => exact ih st1
    | some e => rfl

/-- Claim C1: for every desired set, every observed remote store and every
fault assignment, if the reconciliation pass completes without error then
the set of hook names in the remote store afterwards equals exactly the set
of desired hook names: every desired hook was created or updated to exist,
and every observed hook whose name is not desired was deleted. -/
theorem successful_pass_names_equal_desired
    (f : Faults) (desired : List AWSLifecycleHook) (remote : List RemoteHook)
    (a : Nat) (c : Conditions)
    (hok : (runPass f desired remote a c).2 = none) :
    ∀ n, n ∈ remoteNames (runPass f desired remote a c).1.remote ↔
      n ∈ desiredNames desired := by
  intro n
  rcases hloop : reconcileLoop f (initState remote a c) desired with ⟨st1, r1⟩
  cases r1 with
  | some e =>
    have heq : runPass f desired remote a c = (st1, some e) :=
      ReconcileLifecycleHooks_loop_err f desired (initState remote a c) st1 e hloop
    rw [heq] at hok
    simp at hok
  | none =>
    have heq : runPass f desired remote a c =
        match GetLifecycleHooks f st1 with
        | (st2, ListOutcome.failed) => (st2, some PassError.listErr)
        | (st2, ListOutcome.panicked) => (st2, some PassError.nilDerefPanic)
        | (st2, ListOutcome.listed hooks) => pruneLoop f desired st2 hooks :=
      ReconcileLifecycleHooks_loop_ok f desired (initState remote a c) st1 hloop
    by_cases hda : f.describeAll
    · rcases hlist : GetLifecycleHooks f st1 with ⟨st2, o⟩
      have ho : o = ListOutcome.failed := by
        simp [GetLifecycleHooks, hda] at hlist
        exact hlist.2.symm
      have heqF : runPass f desired remote a c = (st2, some PassError.listErr) := by
        rw [heq, hlist, ho]
      rw [heqF] at hok
      simp at hok
    · obtain ⟨st2, hooks, hg, hrem, hconds, htr, hnames⟩ :=
        GetLifecycleHooks_listed f st1 (by simpa using hda)
      have heq2 : runPass f desired remote a c = pruneLoop f desired st2 hooks := by
        rw [heq, hg]
      rcases hpr : pruneLoop f desired st2 hooks with ⟨st3, r3⟩
      cases r3 with
      | some e =>
        rw [heq2, hpr] at hok
        simp at hok
      | none =>
        rw [heq2, hpr]
        have hp := pruneLoop_ok_names f desired hooks st2 st3 hpr n
        have hl := reconcileLoop_ok_names f desired (initState remote a c) st1 hloop n
        simp only [initState] at hl
        rw [hnames, hrem] at hp
        simp only []
        rw [hp, hl]
        constructor
        · rintro ⟨ha | ha, hb⟩
          · exact hb (Or.inl ha)
          · exact ha
        · intro hin
          exact ⟨Or.inr hin, fun _ => hin⟩

/-- Witness for C1 at a concrete input: desired hook "b", remote orphan
hook "orphan", fault-free pass. -/
theorem successful_pass_names_witness :
    ("b" ∈ remoteNames (runPass noFaults [bareHookB] [orphanRemoteHook] 100 conds0).1.remote ↔
      "b" ∈ desiredNames [bareHookB]) ∧
    ("orphan" ∈ remoteNames (runPass noFaults [bareHookB] [orphanRemoteHook] 100 conds0).1.remote ↔
      "orphan" ∈ desiredNames [bareHookB]) := by
  have h := successful_pass_names_equal_desired noFaults [bareHookB] [orphanRemoteHook] 100 conds0
    (by decide)
  exact ⟨h "b", h "orphan"⟩

/-- Claim C2: when the desired list is `pre ++ hookN :: post` (so `hookN`
is the Nth desired hook), the first N hooks succeed, `hookN` is absent
remotely and its create fails, then the pass returns the create error, its
whole trace is the prefix trace plus exactly the get, the create and the
False/CreationFailed condition write for `hookN`, the pruning list call is
never made, the `LifecycleHookExists` condition ends False with reason
CreationFailed, and (names being distinct) no remote call of the pass
touches any hook after the Nth. -/
theorem create_failure_fail_fast
    (f : Faults) (pre post : List AWSLifecycleHook) (hookN : AWSLifecycleHook)
    (remote : List RemoteHook) (a : Nat) (c : Conditions) (stN : PassState)
    (hpre : reconcileLoop f (initState remote a c) pre = (stN, none))
    (hget : f.describeOne hookN.Name = false)
    (habsent : stN.remote.filter (fun rh => rh.LifecycleHookName == hookN.Name) = [])
    (hfail : f.put hookN.Name = true)
    (hnodup : (desiredNames (pre ++ hookN :: post)).Nodup) :
    (runPass f (pre ++ hookN :: post) remote a c).2 =
      some (PassError.createErr hookN.Name) ∧
    (runPass f (pre ++ hookN :: post) remote a c).1.trace =
      stN.trace ++ [Event.getCall hookN.Name, Event.createCall hookN.Name,
        Event.markExistsFalse CondReason.creationFailed] ∧
    Event.listCall ∉ (runPass f (pre ++ hookN :: post) remote a c).1.trace ∧
    (runPass f (pre ++ hookN :: post) remote a c).1.conds.lifecycleHookExists =
      some ⟨CondStatus.isFalse, some CondReason.creationFailed⟩ ∧
    ∀ hook ∈ post, ∀ e ∈ (runPass f (pre ++ hookN :: post) remote a c).1.trace,
      eventTouches hook.Name e = false := by
  have hstep : reconcileLifecycleHook f stN hookN =
      ({ stN with
          conds := { stN.conds with lifecycleHookExists := some ⟨CondStatus.isFalse, some CondReason.creationFailed⟩ },
          trace := stN.trace ++ [Event.getCall hookN.Name, Event.createCall hookN.Name,
            Event.markExistsFalse CondReason.creationFailed] },
        some (PassError.createErr hookN.Name)) := by
    simp [reconcileLifecycleHook, GetLifecycleHook, CreateLifecycleHook,
      hget, habsent, hfail, markExistsFalse]
  have hloop : reconcileLoop f (initState remote a c) (pre ++ hookN :: post) =
      ({ stN with
          conds := { stN.conds with lifecycleHookExists := some ⟨CondStatus.isFalse, some CondReason.creationFailed⟩ },
          trace := stN.trace ++ [Event.getCall hookN.Name, Event.createCall hookN.Name,
            Event.markExistsFalse CondReason.creationFailed] },
        some (PassError.createErr hookN.Name)) := by
    rw [reconcileLoop_append f pre (hookN :: post) (initState remote a c), hpre]
    simp only [reconcileLoop, hstep]
  have hrun : runPass f (pre ++ hookN :: post) remote a c =
      ({ stN with
          conds := { stN.conds with lifecycleHookExists := some ⟨CondStatus.isFalse, some CondReason.creationFailed⟩ },
          trace := stN.trace ++ [Event.getCall hookN.Name, Event.createCall hookN.Name,
            Event.markExistsFalse CondReason.creationFailed] },
        some (PassError.createErr hookN.Name)) :=
    ReconcileLifecycleHooks_loop_err f (pre ++ hookN :: post) (initState remote a c) _ _ hloop
  obtain ⟨d, hdtr, hdp⟩ := reconcileLoop_trace f pre (initState remote a c)
  rw [hpre] at hdtr
  simp only [initState, List.nil_append] at hdtr
  simp only [desiredNames, List.map_append, List.map_cons] at hnodup
  rw [List.nodup_append] at hnodup
  obtain ⟨hnd1, hnd2, hdisj⟩ := hnodup
  rw [List.nodup_cons] at hnd2
  obtain ⟨hnotpost, hndpost⟩ := hnd2
  refine ⟨by rw [hrun], by rw [hrun], ?_, by rw [hrun], ?_⟩
  · rw [hrun]
    intro hmem
    simp only [] at hmem
    rw [hdtr] at hmem
    rcases List.mem_append.mp hmem with hin | hin
    · exact absurd rfl (hdp Event.listCall hin).1
    · simp at hin
  · intro hook hhk e he
    have hhkpost : hook.Name ∈ List.map (fun h => h.Name) post :=
      List.mem_map.mpr ⟨hook, hhk, rfl⟩
    rw [hrun] at he
    simp only [] at he
    rw [hdtr] at he
    cases htt : eventTouches hook.Name e with
    | false => rfl
    | true =>
      exfalso
      rcases List.mem_append.mp he with hin | hin
      · have h2 := (hdp e hin).2 hook.Name htt
        simp only [desiredNames] at h2
        exact (hdisj h2) (List.mem_cons_of_mem _ hhkpost)
      · simp only [List.mem_cons, List.not_mem_nil, or_false] at hin
        rcases hin with rfl | rfl | rfl
        · exact hnotpost (touches_getCall htt ▸ hhkpost)
        · exact hnotpost (touches_createCall htt ▸ hhkpost)
        · exact absurd htt (by simp [eventTouches])

/-- Witness for C2 at a concrete input: hook "a" first, hook "b" second,
empty remote, create of "a" failing. -/
theorem create_failure_fail_fast_witness :
    (runPass createFailFaults [fullHookA, bareHookB] [] 100 conds0).2 =
      some (PassError.createErr "a") ∧
    Event.listCall ∉ (runPass createFailFaults [fullHookA, bareHookB] [] 100 conds0).1.trace := by
  have h := create_failure_fail_fast createFailFaults [] [bareHookB] fullHookA [] 100 conds0
    (initState [] 100 conds0) (by decide) (by decide) (by decide) (by decide) (by decide)
  exact ⟨h.1, h.2.2.1⟩

/-- Claim C3 is false on the code (code bug): a second pass immediately
after a successful pass, with the desired set unchanged and the remote
store exactly as the first pass left it, performs one UpdateLifecycleHook
call instead of zero, because `LifecycleHookNeedsUpdate` compares pointer
identity and the read-back conversion allocates fresh pointers. Creates and
deletes are zero and the condition ends True, as the claim says. -/
theorem second_pass_issues_update :
    idemPass1.2 = none ∧ idemPass2.2 = none ∧
    countCreates idemPass2.1.trace = 0 ∧
    countDeletes idemPass2.1.trace = 0 ∧
    countUpdates idemPass2.1.trace = 1 ∧
    idemPass2.1.conds.lifecycleHookExists = some ⟨CondStatus.isTrue, none⟩ := by
  decide

/-- Claim C4 is false on the code (code bug): `LifecycleHookNeedsUpdate`
returns true on two hooks whose five comparable fields are equal by value
(`hookComparableValueDiffers` is false), because the Go code compares the
pointer fields with `!=`, which is allocation identity, not value
equality. -/
theorem needsUpdate_true_on_value_equal_hooks :
    LifecycleHookNeedsUpdate fullHookA fullHookAClone = true ∧
    hookComparableValueDiffers fullHookA fullHookAClone = false := by
  decide

/-- Claim C5 counterexample: in Scenario A (one desired hook, empty
observed set) the pass succeeds with exactly one create but ends with the
`LifecycleHookExists` condition never written, not True, because the
successful-create branch returns early without `MarkTrue`; and in a pass
over two existing hooks where the second fails, `MarkTrue` has already been
written after the first hook (among the first three events, before any
event of hook "b"), so the condition is not marked True only after all
hooks succeed. -/
theorem scenarioA_leaves_condition_unwritten :
    scenarioA.2 = none ∧
    countCreates scenarioA.1.trace = 1 ∧
    scenarioA.1.conds.lifecycleHookExists = none ∧
    (∀ e ∈ partialSuccessPass.1.trace.take 3, e ≠ Event.getCall "b") ∧
    Event.markExistsTrue ∈ partialSuccessPass.1.trace.take 3 ∧
    partialSuccessPass.2 = some (PassError.updateErr "b") := by
  decide

/-- Claim C5 amended: `MarkTrue(LifecycleHookExists)` is written
immediately after each desired hook that is found remotely and reconciled
without failure, even when later hooks remain; a hook that is successfully
created leaves the condition unwritten. In Scenario A the pass performs
exactly one create, zero updates and zero deletes, succeeds, and ends with
the condition unwritten. -/
theorem perHook_marking_and_scenarioA :
    (∀ (f : Faults) (st : PassState) (hook : AWSLifecycleHook) (st1 : PassState),
      reconcileLifecycleHook f st hook = (st1, none) →
      (st.remote.filter (fun rh => rh.LifecycleHookName == hook.Name) = [] →
        st1.conds.lifecycleHookExists = st.conds.lifecycleHookExists) ∧
      (st.remote.filter (fun rh => rh.LifecycleHookName == hook.Name) ≠ [] →
        st1.conds.lifecycleHookExists = some ⟨CondStatus.isTrue, none⟩)) ∧
    (scenarioA.2 = none ∧
     countCreates scenarioA.1.trace = 1 ∧
     countUpdates scenarioA.1.trace = 0 ∧
     countDeletes scenarioA.1.trace = 0 ∧
     scenarioA.1.conds.lifecycleHookExists = none) := by
  constructor
  · intro f st hook st1 hok
    by_cases hd : f.describeOne hook.Name
    · simp [reconcileLifecycleHook, GetLifecycleHook, hd, markReadyUnknown] at hok
    · rcases hfl : st.remote.filter (fun rh => rh.LifecycleHookName == hook.Name) with _ | ⟨rh, rest⟩
      · by_cases hput : f.put hook.Name
        · simp [reconcileLifecycleHook, GetLifecycleHook, CreateLifecycleHook,
            hd, hfl, hput, markExistsFalse] at hok
        · simp [reconcileLifecycleHook, GetLifecycleHook, CreateLifecycleHook,
            hd, hfl, hput] at hok
          constructor
          · intro _
            rw [← hok]
          · intro hne
            exact absurd hfl hne
      · constructor
        · intro hcon
          rw [hcon] at hfl
          cases hfl
        · intro _
          by_cases hup : LifecycleHookNeedsUpdate
              (AWSLifecycleHook.mk rh.LifecycleHookName rh.LifecycleTransition
                (some ⟨st.fresh + 7, rh.DefaultResult⟩)
                (some ⟨st.fresh + 8, durationOfSeconds rh.HeartbeatTimeout⟩)
                (rh.NotificationTargetARN.map (fun v => ⟨st.fresh + 4, v⟩))
                (rh.RoleARN.map (fun v => ⟨st.fresh + 5, v⟩))
                (rh.NotificationMetadata.map (fun v => ⟨st.fresh + 6, v⟩))) hook
          · by_cases hput : f.put hook.Name
            · simp [reconcileLifecycleHook, GetLifecycleHook, UpdateLifecycleHook,
                SDKToLifecycleHook, unmarshalSDKHook, hd, hfl, hput, hup,
                markExistsFalse, markExistsTrue] at hok
            · simp [reconcileLifecycleHook, GetLifecycleHook, UpdateLifecycleHook,
                SDKToLifecycleHook, unmarshalSDKHook, hd, hfl, hput, hup,
                markExistsTrue] at hok
              rw [← hok]
          · simp [reconcileLifecycleHook, GetLifecycleHook,
              SDKToLifecycleHook, unmarshalSDKHook, hd, hfl, hup,
              markExistsTrue] at hok
            rw [← hok]
  · decide

/-- Witness for the amended C5: a successfully created hook leaves the
condition unwritten. -/
theorem perHook_marking_witness :
    (reconcileLifecycleHook noFaults (initState [] 0 conds0) bareHookB).1.conds.lifecycleHookExists =
      none := by
  have h := perHook_marking_and_scenarioA.1 noFaults (initState [] 0 conds0) bareHookB
    (reconcileLifecycleHook noFaults (initState [] 0 conds0) bareHookB).1 (by decide)
  exact h.1 (by decide)

/-- Claim C6 is false on the code (code bug): when the describe-all call
that feeds the pruning step fails, `ReconcileLifecycleHooks` returns the
error with no condition written at all - the trace of the failing pass is
just the list call and the conditions are untouched - contradicting the
dual-reporting policy the claim states. -/
theorem list_error_returned_without_condition_write :
    listFailPass.2 = some PassError.listErr ∧
    listFailPass.1.conds = conds0 ∧
    listFailPass.1.trace = [Event.listCall] := by
  decide

/-- Claim C7 counterexample: when the remote delete call reports a
not-found error, `DeleteLifecycleHook` returns that error rather than
treating the absence as success - the code never inspects the error
kind. -/
theorem deleteHook_errors_on_notFound :
    (DeleteLifecycleHook deleteNotFoundFaults (initState [] 0 conds0) "orphan").2 =
      some (PassError.deleteErr "orphan" AwsErrorKind.notFound) := by
  decide

/-- Claim C7 amended: `DeleteLifecycleHook` fails exactly when the remote
delete call fails, whatever the kind of the remote error (not-found
included); deleting an already-absent hook succeeds only if the remote API
itself reports success in that case. -/
theorem deleteHook_error_iff_client_error (f : Faults) (st : PassState) (name : String) :
    (DeleteLifecycleHook f st name).2 =
      (f.delete name).map (fun k => PassError.deleteErr name k) := by
  rcases hf : f.delete name with _ | k <;> simp [DeleteLifecycleHook, hf]

/-- Claim C8: for a hook whose heartbeat timeout is a whole number of
seconds within the remote bounds (30s to 48h), writing it through the put
input conversion (whole seconds) and reading it back through
`SDKToLifecycleHook` yields the original duration: the write conversion
composed with the read conversion is the identity on integer-second
durations. -/
theorem heartbeat_roundtrip (hook : AWSLifecycleHook) (i a b : Nat) (s : Int)
    (hs : hook.HeartbeatTimeout = some ⟨i, durationOfSeconds s⟩)
    (hlo : 30 ≤ s) (hhi : s ≤ 172800) :
    (SDKToLifecycleHook b (unmarshalSDKHook a (remoteHookOfPut (buildPutInput hook)))).map
        (fun r => r.HeartbeatTimeout.map (fun p => p.val)) =
      some (some (durationOfSeconds s)) := by
  simp [SDKToLifecycleHook, unmarshalSDKHook, remoteHookOfPut, buildPutInput, hs,
    durationOfSeconds, heartbeatSecondsOfNs]

/-- Witness for C8 at a concrete input: a 300-second heartbeat survives the
round trip. -/
theorem heartbeat_roundtrip_witness :
    (SDKToLifecycleHook 7 (unmarshalSDKHook 0 (remoteHookOfPut (buildPutInput fullHookA)))).map
        (fun r => r.HeartbeatTimeout.map (fun p => p.val)) =
      some (some (durationOfSeconds 300)) :=
  heartbeat_roundtrip fullHookA 1 0 7 300 rfl (by decide) (by decide)

/-- Claim C9: `LifecycleHookNeedsUpdate h h` is false for every hook `h`
(reflexivity), and on any memory-coherent pair of hooks (a shared
allocation holds one value, as in every real Go heap) it returns true
whenever one or more comparable fields differ by value - in particular
whenever exactly one does. -/
theorem needsUpdate_reflexive_and_detects_value_change :
    (∀ h : AWSLifecycleHook, LifecycleHookNeedsUpdate h h = false) ∧
    (∀ e x : AWSLifecycleHook, hookPtrCoherentB e x = true →
      hookComparableValueDiffers e x = true →
      LifecycleHookNeedsUpdate e x = true) := by
  constructor
  · intro h
    simp [LifecycleHookNeedsUpdate, goPtrEqB_refl]
  · intro e x hc hd
    simp only [hookPtrCoherentB, Bool.and_eq_true] at hc
    obtain ⟨⟨⟨c1, c2⟩, c3⟩, c4⟩ := hc
    cases hn : LifecycleHookNeedsUpdate e x
    · exfalso
      unfold LifecycleHookNeedsUpdate at hn
      unfold hookComparableValueDiffers at hd
      simp at hn hd
      obtain ⟨⟨⟨⟨n1, n2⟩, n3⟩, n4⟩, n5⟩ := hn
      rcases hd with ⟨⟨⟨h | h⟩ | h⟩ | h⟩ | h
      · rw [ptrValEqB_of_goPtrEqB c1 n1] at h
        exact absurd h (by simp)
      · rw [ptrValEqB_of_goPtrEqB c2 n2] at h
        exact absurd h (by simp)
      · exact h n3
      · rw [ptrValEqB_of_goPtrEqB c3 n4] at h
        exact absurd h (by simp)
      · rw [ptrValEqB_of_goPtrEqB c4 n5] at h
        exact absurd h (by simp)
    · rfl

/-- Witness for C9 at concrete inputs: reflexivity at one hook, and
sensitivity on a value-differing coherent pair. -/
theorem needsUpdate_reflexive_witness :
    LifecycleHookNeedsUpdate fullHookA fullHookA = false ∧
    LifecycleHookNeedsUpdate fullHookA bareHookB = true :=
  ⟨needsUpdate_reflexive_and_detects_value_change.1 fullHookA,
   needsUpdate_reflexive_and_detects_value_change.2 fullHookA bareHookB (by decide) (by decide)⟩

/-- Claim C10 counterexample: `SDKToLifecycleHook` dereferences the
heartbeat-timeout field without a nil check, so a wire hook with that field
absent is not converted (a nil-dereference panic, modelled as none) instead
of being mapped to a default. -/
theorem sdkConversion_panics_on_absent_heartbeat :
    SDKToLifecycleHook 10 sdkHookNoHeartbeat = none := by
  decide

/-- Claim C10 amended: `SDKToLifecycleHook` is defined exactly on SDK hooks
whose heartbeat-timeout, default-result, transition and name fields are all
present; it unconditionally dereferences those four and handles absence of
none of them. -/
theorem sdkConversion_defined_iff_mandatory_present (a : Nat) (hook : SDKLifecycleHook) :
    (SDKToLifecycleHook a hook).isSome =
      (hook.HeartbeatTimeout.isSome && hook.DefaultResult.isSome &&
       hook.LifecycleTransition.isSome && hook.LifecycleHookName.isSome) := by
  obtain ⟨nm, lt, dr, ht, nt, ra, md⟩ := hook
  cases nm <;> cases lt <;> cases dr <;> cases ht <;> rfl

